import Mathlib

/-!
Verification of the retrieval pipeline of the docsscanAi repository
(src/rag_system.py, src/embeddings.py) against its natural-language
specification.  The Python code is shallowly embedded: pure helpers become
Lean functions, the external collaborators (vector index, embedding
provider, generation provider, filesystem cache) become explicit
environment records, exceptions become Except, and numpy floats become
rationals.  Every definition follows the corresponding source line by
line; effects that the claims observe (which provider was invoked, what
was upserted) are returned explicitly.
-/

deriving instance DecidableEq for Except

/-! ## Python string primitives -/

/-- Truthiness of Python `s.strip()`: true iff `s` has a non-whitespace
character.  `if not text.strip()` in the source is `if !hasNonWS text`. -/
def hasNonWS (s : String) : Bool :=
  s.data.any (fun c => !c.isWhitespace)

/-- Worker for `str.split()` with no separator: walk the characters,
accumulating the current word reversed in `acc`; whitespace flushes a
nonempty accumulator, empty fragments are discarded. -/
def splitWSAux : List Char → List Char → List (List Char)
  | [], acc => if acc = [] then [] else [acc.reverse]
  | c :: cs, acc =>
    if c.isWhitespace then
      (if acc = [] then splitWSAux cs [] else acc.reverse :: splitWSAux cs [])
    else splitWSAux cs (c :: acc)

/-- Python `text.split()`: split on runs of whitespace, no empty words. -/
def pySplit (s : String) : List String :=
  (splitWSAux s.data []).map String.mk

/-- Python `sep.join(ws)`. -/
def pyJoin (sep : String) : List String → String
  | [] => ""
  | [w] => w
  | w :: ws => w ++ sep ++ pyJoin sep ws

/-- Python `range(0, stop, step)` for an integer `step`: `step = 0` raises
`ValueError`; a negative `step` starting at 0 with `stop ≥ 0` yields the
empty range; a positive `step` yields `0, step, 2*step, … < stop`. -/
def pyRange0 (stop : Nat) (step : Int) : Except String (List Nat) :=
  if step = 0 then .error "range() arg 3 must not be zero"
  else if step < 0 then .ok []
  else
    .ok ((List.range ((stop + step.toNat - 1) / step.toNat)).map
      (fun k => k * step.toNat))

/-- Python slice `words[i : i + size]` (for a nonnegative size). -/
def window (words : List String) (size i : Nat) : List String :=
  (words.drop i).take size

/-- Final path component, as `pathlib.Path(p).name` behaves on the paths
the pipeline passes around (empty components collapse). -/
def splitSlashAux : List Char → List Char → List (List Char)
  | [], acc => if acc = [] then [] else [acc.reverse]
  | c :: cs, acc =>
    if c = '/' then
      (if acc = [] then splitSlashAux cs [] else acc.reverse :: splitSlashAux cs [])
    else splitSlashAux cs (c :: acc)

def pathName (p : String) : String :=
  ((splitSlashAux p.data []).map String.mk).getLastD ""

/-! ## RAGSystem.chunk_text (src/rag_system.py lines 39-54) -/

/-- `RAGSystem.chunk_text(text, chunk_size=800, overlap=100)`:

    if not text.strip(): return []
    words = text.split()
    if len(words) <= chunk_size: return [text]
    chunks = []
    for i in range(0, len(words), chunk_size - overlap):
        chunk = " ".join(words[i:i + chunk_size])
        if chunk.strip(): chunks.append(chunk)
    return chunks

A `ValueError` escaping from `range` is an `Except.error`. -/
def chunk_text (text : String) (chunk_size overlap : Nat) :
    Except String (List String) :=
  if !hasNonWS text then .ok []
  else
    let words := pySplit text
    if words.length ≤ chunk_size then .ok [text]
    else
      (pyRange0 words.length ((chunk_size : Int) - (overlap : Int))).map
        (fun idxs =>
          (idxs.map (fun i => pyJoin " " (window words chunk_size i))).filter
            (fun c => hasNonWS c))

/-! ## MD5 (hashlib.md5) over UTF-8 bytes, used for the cache key in
src/embeddings.py line 25.  Faithful implementation of RFC 1321 on `Nat`
words reduced mod 2^32. -/

/-- UTF-8 encoding of one Unicode code point. -/
def utf8EncodeChar (c : Nat) : List Nat :=
  if c < 0x80 then [c]
  else if c < 0x800 then [0xC0 + c / 64, 0x80 + c % 64]
  else if c < 0x10000 then
    [0xE0 + c / 4096, 0x80 + (c / 64) % 64, 0x80 + c % 64]
  else
    [0xF0 + c / 262144, 0x80 + (c / 4096) % 64, 0x80 + (c / 64) % 64,
     0x80 + c % 64]

/-- Python UTF-8 encoding of a string (`text.encode`) as byte values. -/
def utf8Bytes (s : String) : List Nat :=
  (s.data.map (fun c => utf8EncodeChar c.toNat)).foldr (· ++ ·) []

/-- The 64 MD5 sine constants `K[i] = floor(abs(sin(i+1)) * 2^32)`. -/
def md5K : List Nat :=
  [0xd76aa478, 0xe8c7b756, 0x242070db, 0xc1bdceee, 0xf57c0faf, 0x4787c62a, 0xa8304613, 0xfd469501,
   0x698098d8, 0x8b44f7af, 0xffff5bb1, 0x895cd7be, 0x6b901122, 0xfd987193, 0xa679438e, 0x49b40821,
   0xf61e2562, 0xc040b340, 0x265e5a51, 0xe9b6c7aa, 0xd62f105d, 0x02441453, 0xd8a1e681, 0xe7d3fbc8,
   0x21e1cde6, 0xc33707d6, 0xf4d50d87, 0x455a14ed, 0xa9e3e905, 0xfcefa3f8, 0x676f02d9, 0x8d2a4c8a,
   0xfffa3942, 0x8771f681, 0x6d9d6122, 0xfde5380c, 0xa4beea44, 0x4bdecfa9, 0xf6bb4b60, 0xbebfbc70,
   0x289b7ec6, 0xeaa127fa, 0xd4ef3085, 0x04881d05, 0xd9d4d039, 0xe6db99e5, 0x1fa27cf8, 0xc4ac5665,
   0xf4292244, 0x432aff97, 0xab9423a7, 0xfc93a039, 0x655b59c3, 0x8f0ccc92, 0xffeff47d, 0x85845dd1,
   0x6fa87e4f, 0xfe2ce6e0, 0xa3014314, 0x4e0811a1, 0xf7537e82, 0xbd3af235, 0x2ad7d2bb, 0xeb86d391]

/-- The MD5 per-round left-rotation amounts. -/
def md5S : List Nat :=
  [7, 12, 17, 22, 7, 12, 17, 22, 7, 12, 17, 22, 7, 12, 17, 22,
   5,  9, 14, 20, 5,  9, 14, 20, 5,  9, 14, 20, 5,  9, 14, 20,
   4, 11, 16, 23, 4, 11, 16, 23, 4, 11, 16, 23, 4, 11, 16, 23,
   6, 10, 15, 21, 6, 10, 15, 21, 6, 10, 15, 21, 6, 10, 15, 21]

/-- Bitwise complement on 32-bit words represented as `Nat < 2^32`. -/
def not32 (x : Nat) : Nat := 4294967295 - x

/-- Left rotation of a 32-bit word. -/
def rotl32 (x s : Nat) : Nat :=
  ((x <<< s) % 4294967296) + (x >>> (32 - s))

/-- One MD5 round applied to the state `(a, b, c, d)` with message words
`m` (16 little-endian 32-bit words) at round index `i`. -/
def md5Round (m : List Nat) (st : Nat × Nat × Nat × Nat) (i : Nat) :
    Nat × Nat × Nat × Nat :=
  let a := st.1
  let b := st.2.1
  let c := st.2.2.1
  let d := st.2.2.2
  let f :=
    if i < 16 then (b &&& c) ||| (not32 b &&& d)
    else if i < 32 then (d &&& b) ||| (not32 d &&& c)
    else if i < 48 then b ^^^ c ^^^ d
    else c ^^^ (b ||| not32 d)
  let g :=
    if i < 16 then i
    else if i < 32 then (5 * i + 1) % 16
    else if i < 48 then (3 * i + 5) % 16
    else (7 * i) % 16
  let sum := (a + f + md5K.getD i 0 + m.getD g 0) % 4294967296
  let nb := (b + rotl32 sum (md5S.getD i 0)) % 4294967296
  (d, nb, b, c)

/-- Process one 64-byte block (already split into 16 LE words). -/
def md5Block (st : Nat × Nat × Nat × Nat) (m : List Nat) :
    Nat × Nat × Nat × Nat :=
  let r := (List.range 64).foldl (md5Round m) st
  ((st.1 + r.1) % 4294967296, (st.2.1 + r.2.1) % 4294967296,
   (st.2.2.1 + r.2.2.1) % 4294967296, (st.2.2.2 + r.2.2.2) % 4294967296)

/-- `n` little-endian bytes of `x`. -/
def leBytes : Nat → Nat → List Nat
  | 0, _ => []
  | n + 1, x => (x % 256) :: leBytes n (x / 256)

/-- Group a byte list into little-endian 32-bit words. -/
def leWords : List Nat → List Nat
  | b0 :: b1 :: b2 :: b3 :: rest =>
    (b0 + 256 * b1 + 65536 * b2 + 16777216 * b3) :: leWords rest
  | _ => []

/-- MD5 padding: append 0x80, zero-fill to 56 mod 64, append the original
bit length as 8 little-endian bytes. -/
def md5Pad (msg : List Nat) : List Nat :=
  msg ++ [0x80] ++
    List.replicate ((56 + 64 - (msg.length + 1) % 64) % 64) 0 ++
    leBytes 8 ((msg.length * 8) % 18446744073709551616)

/-- Fold the compression function over consecutive 64-byte blocks;
`fuel` bounds the recursion and is instantiated with the list length. -/
def md5Blocks (fuel : Nat) (st : Nat × Nat × Nat × Nat) (bytes : List Nat) :
    Nat × Nat × Nat × Nat :=
  match fuel with
  | 0 => st
  | fuel + 1 =>
    if bytes = [] then st
    else md5Blocks fuel (md5Block st (leWords (bytes.take 64))) (bytes.drop 64)

/-- Lowercase hex digit. -/
def hexDigit (n : Nat) : Char :=
  if n < 10 then Char.ofNat (48 + n) else Char.ofNat (87 + n)

/-- Two lowercase hex characters of one byte. -/
def byteHex (b : Nat) : List Char := [hexDigit (b / 16), hexDigit (b % 16)]

/-- Lowercase hex string of a byte list (Python `hexdigest()`). -/
def hexStr (bs : List Nat) : String :=
  String.mk ((bs.map byteHex).foldr (· ++ ·) [])

/-- `hashlib.md5(bytes).hexdigest()`. -/
def md5Hex (msg : List Nat) : String :=
  let padded := md5Pad msg
  let r := md5Blocks padded.length
    (0x67452301, 0xefcdab89, 0x98badcfe, 0x10325476) padded
  hexStr (leBytes 4 r.1 ++ leBytes 4 r.2.1 ++ leBytes 4 r.2.2.1 ++
    leBytes 4 r.2.2.2)

/-- The cache key (file name) built in `EmbeddingService.get_embedding`
(src/embeddings.py lines 25-26):

    text_hash = hashlib.md5(utf8 bytes of text).hexdigest()
    cache_file = self.cache_dir / f"{text_hash}_{model}.npy"
-/
def cache_file_name (text model : String) : String :=
  md5Hex (utf8Bytes text) ++ "_" ++ model ++ ".npy"

/-! ## Numeric model

Embedding vectors and distances are `numpy` floats in the source; the
claims under verification are about data flow (which value is stored or
returned, whether it is rounded), so they are modelled exactly as
rationals.  Python `round(x, 3)` rounds to the nearest multiple of
1/1000 with ties to even. -/

/-- A stored embedding vector. -/
abbrev Vec := List ℚ

/-- Round to the nearest integer, ties to even (Python `round`). -/
def roundHalfEven (x : ℚ) : ℤ :=
  let f := ⌊x⌋
  let r := x - f
  if r < 1 / 2 then f
  else if 1 / 2 < r then f + 1
  else if f % 2 = 0 then f else f + 1

/-- Python `round(x, 3)`. -/
def roundTo3 (x : ℚ) : ℚ := (roundHalfEven (x * 1000) : ℚ) / 1000

/-! ## EmbeddingService.get_embedding (src/embeddings.py lines 20-80)

The on-disk cache directory is a map from file name to entry; an entry
either loads as a vector or raises in `np.load` (corrupted).  The
provider is the outcome the Voyage HTTP call would have for this text,
and `saveOk` whether `np.save` would succeed.  The function returns the
result, the cache directory afterwards, and whether the provider was
invoked. -/

/-- One cached `.npy` file: loadable vector or corrupted content. -/
inductive CacheEntry where
  | good (v : Vec)
  | corrupt
deriving DecidableEq

/-- The cache directory contents, keyed by file name. -/
def CacheMap := String → Option CacheEntry

/-- Pointwise update of the cache directory. -/
def cacheUpdate (m : CacheMap) (k : String) (v : Option CacheEntry) : CacheMap :=
  fun k2 => if k2 = k then v else m k2

/-- External world of one `get_embedding` call. -/
structure EmbedEnv where
  cache : CacheMap
  provider : Except String Vec
  saveOk : Bool

/-- `EmbeddingService.get_embedding(text, model="voyage-2")`:

    if not text.strip(): raise ValueError("Text cannot be empty")
    text_hash = md5(utf8(text)); cache_file = f"{text_hash}_{model}.npy"
    if cache_file.exists():
        try: return np.load(cache_file)
        except: cache_file.unlink(missing_ok=True)   # corrupted: delete
    ... call provider ...
    try: np.save(cache_file, embedding)
    except: pass                                     # best effort
    return embedding

Returns `(result, cache directory afterwards, provider invoked?)`. -/
def get_embedding (env : EmbedEnv) (text model : String) :
    Except String Vec × CacheMap × Bool :=
  if !hasNonWS text then (.error "Text cannot be empty", env.cache, false)
  else
    let key := cache_file_name text model
    match env.cache key with
    | some (.good v) => (.ok v, env.cache, false)
    | some .corrupt =>
      let c := cacheUpdate env.cache key none
      (match env.provider with
       | .ok v =>
         (.ok v, if env.saveOk then cacheUpdate c key (some (.good v)) else c, true)
       | .error e => (.error e, c, true))
    | none =>
      (match env.provider with
       | .ok v =>
         (.ok v,
          if env.saveOk then cacheUpdate env.cache key (some (.good v)) else env.cache,
          true)
       | .error e => (.error e, env.cache, true))

/-! ## RAGSystem.search_relevant_chunks and ask_question
(src/rag_system.py lines 111-189)

The chromadb collection and the two providers are the environment: the
index count, the outcome of embedding the question, the reply of
`collection.query` as the parallel first-row arrays, and the generation
provider.  Effects the claims observe are returned: the list built,
whether the question was embedded, and the `n_results` actually passed
to the index. -/

/-- Metadata stored with a chunk (src/rag_system.py lines 85-89). -/
structure ChunkMeta where
  document : String
  chunk_index : Nat
  source : String
deriving DecidableEq

/-- First-row arrays of a `collection.query` reply. -/
structure QueryReply where
  documents : List String
  metadatas : List ChunkMeta
  distances : List ℚ
deriving DecidableEq

/-- External world of one question. -/
structure AskEnv where
  count : Nat
  embed : Except String Vec
  query : Vec → Nat → Except String QueryReply
  generate : String → String → Except String String

/-- One element of the list `search_relevant_chunks` builds. -/
structure RetrievedChunk where
  text : String
  metadata : ChunkMeta
  similarity : ℚ
deriving DecidableEq

/-- `RAGSystem.search_relevant_chunks(question, n_results=5)`: validates
the question, short-circuits on an empty index, embeds the question,
queries for `min(n_results, count)` neighbors and converts each distance
`d` to similarity `1 - d`; any exception is printed and turned into `[]`.
Returns `(chunks, question embedded?, n_results passed to the index)`. -/
def search_relevant_chunks (env : AskEnv) (question : String)
    (n_results : Nat) : List RetrievedChunk × Bool × Option Nat :=
  if !hasNonWS question then ([], false, none)
  else if env.count = 0 then ([], false, none)
  else
    match env.embed with
    | .error _ => ([], true, none)
    | .ok qemb =>
      let k := min n_results env.count
      match env.query qemb k with
      | .error _ => ([], true, some k)
      | .ok res =>
        if res.documents = [] then ([], true, some k)
        else if res.documents.length ≤ res.metadatas.length ∧
            res.documents.length ≤ res.distances.length then
          ((res.documents.zip (res.metadatas.zip res.distances)).map
            (fun p => ⟨p.1, p.2.1, 1 - p.2.2⟩), true, some k)
        else ([], true, some k)

/-- The fixed answer returned when retrieval yields nothing
(src/rag_system.py line 156). -/
def noRelevantMsg : String :=
  "Sorry, no relevant information found in the knowledge base."

/-- One entry of the `sources` list of an answer. -/
structure SourceRef where
  document : String
  similarity : ℚ
deriving DecidableEq

/-- The dictionary `ask_question` returns. -/
structure AskResult where
  answer : String
  sources : List SourceRef
  chunks_used : Nat
deriving DecidableEq

/-- The context string assembled from the retrieved chunks:
`"Fragment {i}:\n{text}"` joined by blank lines (1-based `i`). -/
def buildContext (chunks : List RetrievedChunk) : String :=
  pyJoin "\n\n"
    (chunks.enum.map (fun p => "Fragment " ++ toString (p.1 + 1) ++ ":\n" ++ p.2.text))

/-- `RAGSystem.ask_question(question, n_results=3)`: empty question gives
the caught-error answer; empty retrieval gives the fixed no-relevant
answer without calling the generation provider; otherwise the context is
assembled, sources carry `round(similarity, 3)`, and the provider is
called.  Returns `(result, generation provider invoked?)`. -/
def ask_question (env : AskEnv) (question : String) (n_results : Nat) :
    AskResult × Bool :=
  if !hasNonWS question then
    (⟨"Error processing question: Question cannot be empty", [], 0⟩, false)
  else
    let relevant := (search_relevant_chunks env question n_results).1
    if relevant = [] then (⟨noRelevantMsg, [], 0⟩, false)
    else
      let sources := relevant.map
        (fun c => SourceRef.mk c.metadata.document (roundTo3 c.similarity))
      match env.generate question (buildContext relevant) with
      | .ok ans => (⟨ans, sources, relevant.length⟩, true)
      | .error e => (⟨"Error processing question: " ++ e, [], 0⟩, true)

/-! ## RAGSystem.add_document (src/rag_system.py lines 56-109)

The filesystem, the extractor and the per-chunk embedding outcomes are
the environment.  The observable effect is the single `collection.add`
call (or none): its parallel arrays exactly as the source builds them,
including `documents=chunks[:len(embeddings)]`. -/

/-- The arguments of the one `collection.add` call. -/
structure AddCall where
  ids : List String
  embeddings : List Vec
  documents : List String
  metadatas : List ChunkMeta
deriving DecidableEq

/-- External world of one `add_document` call. -/
structure IngestEnv where
  fileExists : Bool
  extract : Except String String
  embedChunk : String → Except String Vec

/-- The embedding loop (src/rag_system.py lines 80-92): for each chunk in
order, on success append the vector, the id `f"{doc_id}_{i}"` and the
metadata; on failure print and continue. -/
def embedLoop (env : IngestEnv) (doc_id file_path : String)
    (chunks : List String) : List Vec × List String × List ChunkMeta :=
  chunks.enum.foldl
    (fun acc p =>
      match env.embedChunk p.2 with
      | .ok v =>
        (acc.1 ++ [v], acc.2.1 ++ [doc_id ++ "_" ++ toString p.1],
         acc.2.2 ++ [ChunkMeta.mk doc_id p.1 file_path])
      | .error _ => acc)
    ([], [], [])

/-- `RAGSystem.add_document(file_path, doc_name=None)`: checks existence,
extracts, rejects blank text, chunks with the defaults
`chunk_text(text)` = `chunk_text(text, 800, 100)`, embeds each chunk
(skip-and-continue), and issues one `collection.add` with
`documents=chunks[:len(embeddings)]`.  Any raised error is caught and
turned into `False`.  Returns `(success, the add call if one was made)`. -/
def add_document (env : IngestEnv) (file_path : String)
    (doc_name : Option String) : Bool × Option AddCall :=
  if !env.fileExists then (false, none)
  else
    match env.extract with
    | .error _ => (false, none)
    | .ok text =>
      if !hasNonWS text then (false, none)
      else
        match chunk_text text 800 100 with
        | .error _ => (false, none)
        | .ok chunks =>
          if chunks = [] then (false, none)
          else
            let doc_id := doc_name.getD (pathName file_path)
            let r := embedLoop env doc_id file_path chunks
            if r.1 = [] then (false, none)
            else
              (true, some (AddCall.mk r.2.1 r.1 (chunks.take r.1.length) r.2.2))

/-! ## Lemmas about the string primitives -/

/-- A word as produced by `str.split()`: nonempty, no whitespace. -/
def goodWord (w : String) : Prop :=
  w.data ≠ [] ∧ ∀ c ∈ w.data, c.isWhitespace = false

instance (w : String) : Decidable (goodWord w) := by
  unfold goodWord; infer_instance

theorem splitWSAux_word (w : List Char) (cs acc : List Char)
    (hw : ∀ c ∈ w, c.isWhitespace = false) :
    splitWSAux (w ++ cs) acc = splitWSAux cs (w.reverse ++ acc) := by
  induction w generalizing acc with
  | nil => simp
  | cons c w ih =>
    have hc : c.isWhitespace = false := hw c (by simp)
    have hw2 : ∀ x ∈ w, x.isWhitespace = false := fun x hx => hw x (by simp [hx])
    simp only [List.cons_append, splitWSAux, hc, Bool.false_eq_true, if_false,
      List.reverse_cons, List.append_assoc, List.singleton_append]
    exact ih (c :: acc) hw2

theorem splitWSAux_all_ws (cs : List Char) (acc : List Char)
    (h : ∀ c ∈ cs, c.isWhitespace = true) :
    splitWSAux cs acc = if acc = [] then [] else [acc.reverse] := by
  induction cs generalizing acc with
  | nil => simp [splitWSAux]
  | cons c cs ih =>
    have hc : c.isWhitespace = true := h c (by simp)
    have h2 : ∀ x ∈ cs, x.isWhitespace = true := fun x hx => h x (by simp [hx])
    by_cases ha : acc = []
    · simp [splitWSAux, hc, ha, ih _ h2]
    · simp [splitWSAux, hc, ha, ih _ h2]

theorem pySplit_blank (s : String) (h : hasNonWS s = false) :
    pySplit s = [] := by
  have hall : ∀ c ∈ s.data, c.isWhitespace = true := by
    intro c hc
    by_contra hw
    have : s.data.any (fun c => !c.isWhitespace) = true :=
      List.any_eq_true.mpr ⟨c, hc, by simp [hw]⟩
    simp [hasNonWS, this] at h
  simp [pySplit, splitWSAux_all_ws s.data [] hall]

theorem hasNonWS_of_pySplit_ne (s : String) (h : pySplit s ≠ []) :
    hasNonWS s = true := by
  by_contra hw
  exact h (pySplit_blank s (by simpa using hw))

theorem splitWSAux_sound (cs : List Char) (acc : List Char)
    (hacc : ∀ c ∈ acc, c.isWhitespace = false) :
    ∀ w ∈ splitWSAux cs acc, w ≠ [] ∧ ∀ c ∈ w, c.isWhitespace = false := by
  induction cs generalizing acc with
  | nil =>
    intro w hw
    by_cases ha : acc = []
    · simp [splitWSAux, ha] at hw
    · simp [splitWSAux, ha] at hw
      subst hw
      exact ⟨by simpa using ha, fun c hc => hacc c (by simpa using hc)⟩
  | cons c cs ih =>
    intro w hw
    by_cases hc : c.isWhitespace = true
    · by_cases ha : acc = []
      · simp [splitWSAux, hc, ha] at hw
        exact ih [] (by simp) w hw
      · simp [splitWSAux, hc, ha] at hw
        rcases hw with hw | hw
        · subst hw
          exact ⟨by simpa using ha, fun x hx => hacc x (by simpa using hx)⟩
        · exact ih [] (by simp) w hw
    · simp only [splitWSAux, hc, if_false] at hw
      refine ih (c :: acc) ?_ w hw
      intro x hx
      rcases List.mem_cons.mp hx with hx | hx
      · subst hx; simpa using hc
      · exact hacc x hx

theorem pySplit_words_good (s : String) : ∀ w ∈ pySplit s, goodWord w := by
  intro w hw
  simp only [pySplit, List.mem_map] at hw
  obtain ⟨v, hv, rfl⟩ := hw
  obtain ⟨h1, h2⟩ := splitWSAux_sound s.data [] (by simp) v hv
  exact ⟨h1, h2⟩

theorem pyJoin_data_cons (w x : String) (ws : List String) :
    (pyJoin " " (w :: x :: ws)).data =
      w.data ++ ' ' :: (pyJoin " " (x :: ws)).data := by
  show (w ++ " " ++ pyJoin " " (x :: ws)).data = _
  simp [String.data_append]

theorem splitWSAux_pyJoin (ws : List String)
    (h : ∀ w ∈ ws, goodWord w) :
    splitWSAux (pyJoin " " ws).data [] = ws.map String.data := by
  induction ws with
  | nil => simp [pyJoin, splitWSAux]
  | cons w ws ih =>
    obtain ⟨hne, hnw⟩ := h w (by simp)
    have h2 : ∀ x ∈ ws, goodWord x := fun x hx => h x (by simp [hx])
    cases ws with
    | nil =>
      show splitWSAux w.data [] = [w.data]
      rw [show w.data = w.data ++ [] by simp, splitWSAux_word w.data [] [] hnw]
      simp [splitWSAux, hne]
    | cons x ws2 =>
      rw [pyJoin_data_cons, splitWSAux_word w.data _ [] hnw]
      have hrev : w.data.reverse ++ [] ≠ [] := by simpa using hne
      simp only [splitWSAux, Char.isWhitespace, if_true, hrev, if_false]
      rw [ih h2]
      simp

theorem pySplit_pyJoin (ws : List String) (h : ∀ w ∈ ws, goodWord w) :
    pySplit (pyJoin " " ws) = ws := by
  simp only [pySplit, splitWSAux_pyJoin ws h, List.map_map]
  have : (String.mk ∘ String.data) = id := by
    funext s; rfl
  simp [this]

/-! ## Lemmas about windows and chunk_text -/

theorem window_length (words : List String) (size i : Nat) :
    (window words size i).length = min size (words.length - i) := by
  simp [window]

theorem window_length_le (words : List String) (size i : Nat) :
    (window words size i).length ≤ size := by
  simp [window_length]

theorem window_words_good (s : String) (size i : Nat) :
    ∀ w ∈ window (pySplit s) size i, goodWord w := by
  intro w hw
  exact pySplit_words_good s w
    (List.drop_subset i (pySplit s) (List.take_subset _ _ hw))

theorem hasNonWS_goodWord (w : String) (h : goodWord w) :
    hasNonWS w = true := by
  obtain ⟨hne, hnw⟩ := h
  cases hd : w.data with
  | nil => exact absurd hd hne
  | cons c cs =>
    have : c.isWhitespace = false := hnw c (by simp [hd])
    simp [hasNonWS, hd, this]

theorem hasNonWS_pyJoin (ws : List String) (hne : ws ≠ [])
    (h : ∀ w ∈ ws, goodWord w) : hasNonWS (pyJoin " " ws) = true := by
  cases ws with
  | nil => exact absurd rfl hne
  | cons w ws =>
    have hw := hasNonWS_goodWord w (h w (by simp))
    cases ws with
    | nil => exact hw
    | cons x ws2 =>
      have : (pyJoin " " (w :: x :: ws2)).data =
          w.data ++ ' ' :: (pyJoin " " (x :: ws2)).data := pyJoin_data_cons w x ws2
      simp only [hasNonWS, this, List.any_append, Bool.or_eq_true]
      left
      simpa [hasNonWS] using hw

theorem lt_of_lt_ceilDiv (k s n : Nat) (hs : 0 < s)
    (hk : k < (n + s - 1) / s) : k * s < n := by
  have h1 : (k + 1) * s ≤ (n + s - 1) / s * s :=
    Nat.mul_le_mul_right s hk
  have h2 : (n + s - 1) / s * s ≤ n + s - 1 := Nat.div_mul_le_self _ _
  have h3 : (k + 1) * s = k * s + s := Nat.succ_mul k s
  omega

/-- In the windowing branch (`overlap < size < word count`) `chunk_text`
returns exactly the joins of the word windows at starts
`0, step, 2*step, …` with `step = size - overlap`; the
`if chunk.strip()` filter keeps everything. -/
theorem chunk_text_windows (text : String) (size overlap : Nat)
    (hov : overlap < size) (hlen : size < (pySplit text).length) :
    chunk_text text size overlap =
      .ok ((List.range
          (((pySplit text).length + (size - overlap) - 1) / (size - overlap))).map
        (fun k => pyJoin " " (window (pySplit text) size (k * (size - overlap))))) := by
  have hwords : pySplit text ≠ [] := by
    intro h
    rw [h] at hlen
    simp at hlen
  have htext : hasNonWS text = true := hasNonWS_of_pySplit_ne text hwords
  have hstep : ((size : Int) - (overlap : Int)) = ((size - overlap : Nat) : Int) := by
    omega
  have hspos : 0 < size - overlap := by omega
  unfold chunk_text
  rw [htext]
  simp only [Bool.not_true, Bool.false_eq_true, if_false]
  rw [if_neg (by omega)]
  unfold pyRange0
  rw [hstep]
  rw [if_neg (by omega), if_neg (by omega)]
  simp only [Int.toNat_ofNat, Except.map]
  congr 1
  rw [List.map_map]
  apply List.filter_eq_self.mpr
  intro c hc
  simp only [List.mem_map, Function.comp] at hc
  obtain ⟨k, hk, rfl⟩ := hc
  have hkn : k * (size - overlap) < (pySplit text).length :=
    lt_of_lt_ceilDiv k _ _ hspos (List.mem_range.mp hk)
  apply hasNonWS_pyJoin
  · have : (window (pySplit text) size (k * (size - overlap))).length ≠ 0 := by
      rw [window_length]
      omega
    intro h
    rw [h] at this
    simp at this
  · exact window_words_good text size _

theorem window_drop_overlap (l : List String) (size ov i : Nat) (h : ov ≤ size) :
    (window l size i).drop (size - ov) =
      (window l size (i + (size - ov))).take ov := by
  unfold window
  rw [List.drop_take, List.take_take, List.drop_drop]
  have h1 : size - (size - ov) = ov := by omega
  have h2 : min ov size = ov := by omega
  rw [h1, h2]

theorem window_full_share (l : List String) (size ov i : Nat) (h : ov ≤ size)
    (hf : (window l size i).length = size) :
    ((window l size i).drop (size - ov)).length = ov := by
  rw [List.length_drop, hf]
  omega

/-- C3 (amended): with `0 ≤ overlap < size` and more than `size` words,
every chunk returned by `chunk_text` has at most `size` words, and for
each pair of consecutive chunks the trailing segment of the earlier one
past the step boundary equals the first `overlap` words of the later
one; that shared segment has exactly `overlap` words whenever the earlier
chunk is full (`size` words) — trailing chunks shorter than `size` share
fewer.  -/
theorem chunk_text_window_bound_and_overlap (text : String)
    (size overlap : Nat) (hov : overlap < size)
    (hlen : size < (pySplit text).length) (cs : List String)
    (hc : chunk_text text size overlap = .ok cs) :
    (∀ c ∈ cs, (pySplit c).length ≤ size) ∧
    (∀ j (hj : j + 1 < cs.length),
      (pySplit (cs.get ⟨j, Nat.lt_of_succ_lt hj⟩)).drop (size - overlap) =
        (pySplit (cs.get ⟨j + 1, hj⟩)).take overlap ∧
      ((pySplit (cs.get ⟨j, Nat.lt_of_succ_lt hj⟩)).length = size →
        ((pySplit (cs.get ⟨j, Nat.lt_of_succ_lt hj⟩)).drop (size - overlap)).length
          = overlap)) := by
  rw [chunk_text_windows text size overlap hov hlen] at hc
  simp only [Except.ok.injEq] at hc
  subst hc
  constructor
  · intro c hcm
    simp only [List.mem_map] at hcm
    obtain ⟨k, _, rfl⟩ := hcm
    rw [pySplit_pyJoin _ (window_words_good text size _)]
    exact window_length_le _ _ _
  · intro j hj
    have hj1 : j < (List.range
        (((pySplit text).length + (size - overlap) - 1) / (size - overlap))).length := by
      simpa using Nat.lt_of_succ_lt hj
    have hj2 : j + 1 < (List.range
        (((pySplit text).length + (size - overlap) - 1) / (size - overlap))).length := by
      simpa using hj
    have hget1 : (((List.range
        (((pySplit text).length + (size - overlap) - 1) / (size - overlap))).map
          (fun k => pyJoin " " (window (pySplit text) size (k * (size - overlap))))).get
            ⟨j, Nat.lt_of_succ_lt hj⟩) =
        pyJoin " " (window (pySplit text) size (j * (size - overlap))) := by
      simp
    have hget2 : (((List.range
        (((pySplit text).length + (size - overlap) - 1) / (size - overlap))).map
          (fun k => pyJoin " " (window (pySplit text) size (k * (size - overlap))))).get
            ⟨j + 1, hj⟩) =
        pyJoin " " (window (pySplit text) size ((j + 1) * (size - overlap))) := by
      simp
    rw [hget1, hget2, pySplit_pyJoin _ (window_words_good text size _),
      pySplit_pyJoin _ (window_words_good text size _)]
    have hmul : (j + 1) * (size - overlap) =
        j * (size - overlap) + (size - overlap) := Nat.succ_mul _ _
    constructor
    · rw [hmul]
      exact window_drop_overlap (pySplit text) size overlap _ (by omega)
    · intro hfull
      exact window_full_share (pySplit text) size overlap _ (by omega) hfull

/-- The claim of spec section 8 that two consecutive windows share exactly
`m` words: the last `m` words of the earlier window are the first `m`
words of the later one. -/
def sharesExactlyWords (a b : String) (m : Nat) : Prop :=
  ((pySplit b).take m).length = m ∧
  (pySplit a).drop ((pySplit a).length - m) = (pySplit b).take m

instance (a b : String) (m : Nat) : Decidable (sharesExactlyWords a b m) := by
  unfold sharesExactlyWords; infer_instance

/-- C3 counterexample: for `size = 4`, `overlap = 3` on a six-word text the
returned chunks are as listed; the consecutive pair at positions 3 and 4
(0-based, so the later one is not the final window, which sits at
position 5) shares only 2 words, not `overlap = 3`.  The as-stated claim
excepts only the final window, so it fails here. -/
theorem chunk_text_consecutive_overlap_cex :
    chunk_text "a b c d e f" 4 3 =
      .ok ["a b c d", "b c d e", "c d e f", "d e f", "e f", "f"] ∧
    ¬ sharesExactlyWords "d e f" "e f" 3 ∧
    sharesExactlyWords "c d e f" "d e f" 3 := by
  refine ⟨by decide, by decide, by decide⟩

/-- C3 witness: the amended theorem applied to the six-word text at the
first consecutive pair. -/
theorem chunk_text_window_bound_and_overlap_witness :
    (pySplit "a b c d").drop (4 - 3) = (pySplit "b c d e").take 3 :=
  ((chunk_text_window_bound_and_overlap "a b c d e f" 4 3 (by decide) (by decide)
    ["a b c d", "b c d e", "c d e f", "d e f", "e f", "f"] (by decide)).2
      0 (by decide)).1

/-- C2 (amended): `chunk_text` performs no overlap validation.  With
`overlap ≥ size`: blank text still returns `[]`; a text of at most
`size` words is still returned whole as `[text]`; with more than `size`
words, `overlap = size` makes Python `range` raise
`ValueError: range() arg 3 must not be zero` (a generic exception, not
an InvalidConfiguration condition), while `overlap > size` silently
returns the empty chunk list.  No configuration error is ever signaled
for `overlap > size`. -/
theorem chunk_text_no_overlap_validation (text : String) (size overlap : Nat)
    (_hge : size ≤ overlap) :
    (hasNonWS text = false → chunk_text text size overlap = .ok []) ∧
    (hasNonWS text = true → (pySplit text).length ≤ size →
      chunk_text text size overlap = .ok [text]) ∧
    (size < (pySplit text).length → overlap = size →
      chunk_text text size overlap = .error "range() arg 3 must not be zero") ∧
    (size < (pySplit text).length → size < overlap →
      chunk_text text size overlap = .ok []) := by
  refine ⟨?_, ?_, ?_, ?_⟩
  · intro h1
    simp [chunk_text, h1]
  · intro h1 h2
    simp [chunk_text, h1, h2]
  · intro h1 h2
    have hne : pySplit text ≠ [] := by
      intro hh
      rw [hh] at h1
      simp at h1
    have htext := hasNonWS_of_pySplit_ne text hne
    have hstep : ((size : Int) - (overlap : Int)) = 0 := by omega
    simp [chunk_text, htext, Nat.not_le.mpr h1, pyRange0, hstep, Except.map]
  · intro h1 h2
    have hne : pySplit text ≠ [] := by
      intro hh
      rw [hh] at h1
      simp at h1
    have htext := hasNonWS_of_pySplit_ne text hne
    have hstep0 : ¬ ((size : Int) - (overlap : Int) = 0) := by omega
    have hstepneg : ((size : Int) - (overlap : Int)) < 0 := by omega
    simp [chunk_text, htext, Nat.not_le.mpr h1, pyRange0, hstep0, hstepneg,
      Except.map]

/-- C2 counterexample: `overlap = 3 > size = 2` on a three-word text: the
call neither signals an InvalidConfiguration condition nor any other
error — it silently returns the empty chunk list. -/
theorem chunk_text_overlap_ge_size_silent_cex :
    chunk_text "a b c" 2 3 = .ok [] := by decide

/-- C2 witness: the amended theorem applied at `size = 2`, `overlap = 2`
on a three-word text, giving the raw Python `ValueError` from `range`. -/
theorem chunk_text_no_overlap_validation_witness :
    chunk_text "a b c" 2 2 = .error "range() arg 3 must not be zero" :=
  (chunk_text_no_overlap_validation "a b c" 2 2 (Nat.le_refl 2)).2.2.1
    (by decide) rfl

/-- C10: a text with at most `chunk_size` whitespace-separated words that
is not blank is returned as the single-element list holding the original
text verbatim, with no size/overlap validation in this branch. -/
theorem chunk_text_short_text_verbatim (text : String) (size overlap : Nat)
    (h1 : hasNonWS text = true) (h2 : (pySplit text).length ≤ size) :
    chunk_text text size overlap = .ok [text] := by
  simp [chunk_text, h1, h2]

/-- C10 witness: a two-word text with an inner double space is returned
verbatim (not rejoined with single spaces) even with `overlap > size`. -/
theorem chunk_text_short_text_verbatim_witness :
    chunk_text "hello  world" 2 5 = .ok ["hello  world"] :=
  chunk_text_short_text_verbatim "hello  world" 2 5 (by decide) (by decide)

/-- C8: with an empty index (`collection.count() == 0`) the search returns
the empty list, the embedding provider is not invoked for the question,
and no index query is issued — for every question, including blank
ones (a blank question is rejected even earlier). -/
theorem search_empty_index_shortcircuit (env : AskEnv) (question : String)
    (n_results : Nat) (h : env.count = 0) :
    search_relevant_chunks env question n_results = ([], false, none) := by
  unfold search_relevant_chunks
  cases hq : hasNonWS question with
  | false => simp
  | true => simp [h]

/-- A concrete environment with an empty index whose providers would all
fail if consulted. -/
def emptyIndexEnv : AskEnv :=
  { count := 0
    embed := .error "provider down"
    query := fun _ _ => .error "index down"
    generate := fun _ _ => .error "llm down" }

/-- C8 witness: the theorem applied to the concrete empty-index
environment. -/
theorem search_empty_index_shortcircuit_witness :
    search_relevant_chunks emptyIndexEnv "what is in the corpus" 5 =
      ([], false, none) :=
  search_empty_index_shortcircuit emptyIndexEnv "what is in the corpus" 5 rfl

/-- Shared helper: `ask_question` on a non-blank question whose retrieval
comes back empty returns the fixed answer without touching the
generation provider. -/
theorem askEmptyRetrieval (env : AskEnv) (question : String)
    (n_results : Nat) (hq : hasNonWS question = true)
    (hs : (search_relevant_chunks env question n_results).1 = []) :
    ask_question env question n_results =
      (AskResult.mk noRelevantMsg [] 0, false) := by
  unfold ask_question
  simp [hq, hs]

/-- C6: when the question is non-blank and retrieval yields no chunks,
`ask_question` returns the fixed no-relevant-information answer with an
empty source list and zero chunks used, and the generation provider is
not invoked. -/
theorem ask_no_results_fixed_answer (env : AskEnv) (question : String)
    (n_results : Nat) (hq : hasNonWS question = true)
    (hs : (search_relevant_chunks env question n_results).1 = []) :
    ask_question env question n_results =
      (AskResult.mk noRelevantMsg [] 0, false) :=
  askEmptyRetrieval env question n_results hq hs

/-- C6 witness: the theorem applied to the concrete empty-index
environment. -/
theorem ask_no_results_fixed_answer_witness :
    ask_question emptyIndexEnv "what is in the corpus" 3 =
      (AskResult.mk noRelevantMsg [] 0, false) :=
  ask_no_results_fixed_answer emptyIndexEnv "what is in the corpus" 3
    (by decide) (by decide)

/-- C9: `search_relevant_chunks` absorbs every exception of the retrieval
path — blank question, embedding-provider failure, index-query failure —
and returns the empty list; consequently, at the `ask_question`
interface, an environment whose provider or index fails is
indistinguishable from one whose retrieval is genuinely empty: both
produce exactly the fixed no-relevant-information result without
invoking the generation provider. -/
theorem search_absorbs_failures :
    (∀ (env : AskEnv) (q : String) (n : Nat), hasNonWS q = false →
      search_relevant_chunks env q n = ([], false, none)) ∧
    (∀ (env : AskEnv) (q : String) (n : Nat) (e : String),
      env.embed = .error e → (search_relevant_chunks env q n).1 = []) ∧
    (∀ (env : AskEnv) (q : String) (n : Nat) (v : Vec) (e : String),
      env.embed = .ok v → env.query v (min n env.count) = .error e →
      (search_relevant_chunks env q n).1 = []) ∧
    (∀ (env1 env2 : AskEnv) (q : String) (n : Nat), hasNonWS q = true →
      (search_relevant_chunks env1 q n).1 = [] →
      (search_relevant_chunks env2 q n).1 = [] →
      ask_question env1 q n = ask_question env2 q n ∧
      ask_question env1 q n = (AskResult.mk noRelevantMsg [] 0, false)) := by
  refine ⟨?_, ?_, ?_, ?_⟩
  · intro env q n hq
    unfold search_relevant_chunks
    simp [hq]
  · intro env q n e he
    unfold search_relevant_chunks
    cases hq : hasNonWS q with
    | false => simp
    | true =>
      by_cases hc : env.count = 0
      · simp [hc]
      · simp [hc, he]
  · intro env q n v e he hquery
    unfold search_relevant_chunks
    cases hq : hasNonWS q with
    | false => simp
    | true =>
      by_cases hc : env.count = 0
      · simp [hc]
      · simp [hc, he, hquery]
  · intro env1 env2 q n hq h1 h2
    have r1 := askEmptyRetrieval env1 q n hq h1
    have r2 := askEmptyRetrieval env2 q n hq h2
    exact ⟨r1.trans r2.symm, r1⟩

/-- A concrete environment with a nonempty index whose embedding provider
fails. -/
def failingProviderEnv : AskEnv :=
  { count := 4
    embed := .error "Voyage AI API connection error"
    query := fun _ _ => .ok (QueryReply.mk ["t"] [ChunkMeta.mk "d" 0 "s"] [0])
    generate := fun _ _ => .ok "an answer" }

/-- C9 witness: the conjuncts applied at concrete inputs — a failing
provider behind a nonempty index yields the same `ask_question` result
as an empty index. -/
theorem search_absorbs_failures_witness :
    (search_relevant_chunks failingProviderEnv "hello" 5).1 = [] ∧
    ask_question failingProviderEnv "hello" 5 =
      ask_question emptyIndexEnv "hello" 5 ∧
    ask_question failingProviderEnv "hello" 5 =
      (AskResult.mk noRelevantMsg [] 0, false) :=
  ⟨search_absorbs_failures.2.1 failingProviderEnv "hello" 5
      "Voyage AI API connection error" rfl,
   (search_absorbs_failures.2.2.2 failingProviderEnv emptyIndexEnv "hello" 5
      (by decide)
      (search_absorbs_failures.2.1 failingProviderEnv "hello" 5
        "Voyage AI API connection error" rfl)
      (by decide)).1,
   (search_absorbs_failures.2.2.2 failingProviderEnv emptyIndexEnv "hello" 5
      (by decide)
      (search_absorbs_failures.2.1 failingProviderEnv "hello" 5
        "Voyage AI API connection error" rfl)
      (by decide)).2⟩

/-- C5 (amended): on the successful path the search passes
`min(n_results, count)` to the index, builds one entry per returned
document, each carrying similarity exactly `1 - d` for the reported
cosine distance `d`, with no rounding inside the retrieval result; the
3-digit rounding is applied only by `ask_question` when it builds the
source list. -/
theorem search_similarity_unrounded (env : AskEnv) (q : String) (n : Nat)
    (hq : hasNonWS q = true) (hc : env.count ≠ 0) (v : Vec)
    (he : env.embed = .ok v) (r : QueryReply)
    (hr : env.query v (min n env.count) = .ok r)
    (hne : r.documents ≠ [])
    (hm : r.documents.length ≤ r.metadatas.length)
    (hd : r.documents.length ≤ r.distances.length) :
    (search_relevant_chunks env q n).2.2 = some (min n env.count) ∧
    (search_relevant_chunks env q n).1.length = r.documents.length ∧
    (∀ i (h1 : i < (search_relevant_chunks env q n).1.length)
      (h2 : i < r.distances.length),
      ((search_relevant_chunks env q n).1.get ⟨i, h1⟩).similarity =
        1 - r.distances.get ⟨i, h2⟩) ∧
    (∀ a, env.generate q (buildContext (search_relevant_chunks env q n).1) = .ok a →
      (ask_question env q n).1.sources =
        (search_relevant_chunks env q n).1.map
          (fun c => SourceRef.mk c.metadata.document (roundTo3 c.similarity))) := by
  have hsearch : search_relevant_chunks env q n =
      ((r.documents.zip (r.metadatas.zip r.distances)).map
        (fun p => RetrievedChunk.mk p.1 p.2.1 (1 - p.2.2)), true,
       some (min n env.count)) := by
    unfold search_relevant_chunks
    simp [hq, hc, he, hr, hne, hm, hd]
  have hlen : (search_relevant_chunks env q n).1.length = r.documents.length := by
    rw [hsearch]
    simp [List.length_zip]
    omega
  refine ⟨by rw [hsearch], hlen, ?_, ?_⟩
  · intro i h1 h2
    have hi : i < r.documents.length := hlen ▸ h1
    simp only [hsearch, List.get_eq_getElem, List.getElem_map, List.getElem_zip]
  · intro a hgen
    have hrel : (search_relevant_chunks env q n).1 ≠ [] := by
      intro hnil
      rw [hnil] at hlen
      exact hne (List.eq_nil_of_length_eq_zero hlen.symm)
    unfold ask_question
    simp only [hq, Bool.not_true, Bool.false_eq_true, if_false, hrel, if_neg hrel]
    rw [hgen]

/-- A concrete environment whose index reports the cosine distance
0.0002, so that the exact similarity 0.9998 differs from its 3-digit
rounding 1.0. -/
def unroundedEnv : AskEnv :=
  { count := 1
    embed := .ok [1]
    query := fun _ _ =>
      .ok (QueryReply.mk ["relevant text"] [ChunkMeta.mk "doc.txt" 0 "doc.txt"]
        [1 / 5000])
    generate := fun _ _ => .ok "an answer" }

/-- C5 counterexample: the retrieval result itself carries the unrounded
similarity 4999/5000 = 0.9998 (3-digit rounding would give 1.0); it is
`ask_question` that rounds when building the sources. -/
theorem search_similarity_not_rounded_cex :
    (search_relevant_chunks unroundedEnv "q" 5).1 =
      [RetrievedChunk.mk "relevant text" (ChunkMeta.mk "doc.txt" 0 "doc.txt")
        (4999 / 5000)] ∧
    roundTo3 ((4999 : ℚ) / 5000) ≠ 4999 / 5000 ∧
    (ask_question unroundedEnv "q" 5).1.sources = [SourceRef.mk "doc.txt" 1] := by
  have hround : roundTo3 ((4999 : ℚ) / 5000) = 1 := by
    have hf : ⌊(4999 : ℚ) / 5000 * 1000⌋ = 999 := by norm_num
    unfold roundTo3 roundHalfEven
    rw [hf]
    norm_num
  have hsim : (1 : ℚ) - 1 / 5000 = 4999 / 5000 := by norm_num
  have hq : hasNonWS "q" = true := by decide
  have hsearch : (search_relevant_chunks unroundedEnv "q" 5).1 =
      [RetrievedChunk.mk "relevant text" (ChunkMeta.mk "doc.txt" 0 "doc.txt")
        (4999 / 5000)] := by
    unfold search_relevant_chunks unroundedEnv
    norm_num
    simp [hq]
  refine ⟨hsearch, ?_, ?_⟩
  · rw [hround]
    norm_num
  · unfold ask_question
    rw [hsearch]
    norm_num [hq]
    simp [unroundedEnv, hround]

/-- C5 witness: the amended theorem applied to the concrete environment. -/
theorem search_similarity_unrounded_witness :
    (search_relevant_chunks unroundedEnv "q" 5).2.2 = some 1 ∧
    (search_relevant_chunks unroundedEnv "q" 5).1.length = 1 :=
  ⟨(search_similarity_unrounded unroundedEnv "q" 5 (by decide) (by decide)
      [1] rfl _ rfl (by decide) (by decide) (by decide)).1,
   (search_similarity_unrounded unroundedEnv "q" 5 (by decide) (by decide)
      [1] rfl _ rfl (by decide) (by decide) (by decide)).2.1⟩

/-- C7: for a non-blank text, a cache entry that is present but corrupted
is deleted and the call proceeds exactly as a cache miss: the whole
observable outcome (result, final cache directory, provider invocation)
equals that of the same environment with the entry absent, the returned
result is exactly the provider outcome (corruption never surfaces), the
provider is invoked, and the corrupt entry is gone afterwards. -/
theorem get_embedding_selfheals (env : EmbedEnv) (text model : String)
    (ht : hasNonWS text = true)
    (hcor : env.cache (cache_file_name text model) = some CacheEntry.corrupt) :
    get_embedding env text model =
      get_embedding
        (EmbedEnv.mk (cacheUpdate env.cache (cache_file_name text model) none)
          env.provider env.saveOk) text model ∧
    (get_embedding env text model).1 = env.provider ∧
    (get_embedding env text model).2.2 = true ∧
    (get_embedding env text model).2.1 (cache_file_name text model) ≠
      some CacheEntry.corrupt := by
  have hkey : cacheUpdate env.cache (cache_file_name text model) none
      (cache_file_name text model) = none := by
    simp [cacheUpdate]
  have hupd : ∀ v : Option CacheEntry,
      cacheUpdate (cacheUpdate env.cache (cache_file_name text model) none)
        (cache_file_name text model) v =
      cacheUpdate env.cache (cache_file_name text model) v := by
    intro v
    funext k2
    by_cases h : k2 = cache_file_name text model <;> simp [cacheUpdate, h]
  unfold get_embedding
  simp only [ht, Bool.not_true, Bool.false_eq_true, if_false, hcor, hkey]
  cases hp : env.provider with
  | ok v =>
    cases hs : env.saveOk with
    | true => simp [hupd, cacheUpdate]
    | false => simp [cacheUpdate]
  | error e => simp [cacheUpdate]

/-- A concrete single-entry cache directory holding a corrupted entry for
the text "hello" under model "voyage-2". -/
def corruptCache : CacheMap :=
  fun k => if k = cache_file_name "hello" "voyage-2" then some CacheEntry.corrupt
           else none

/-- C7 witness: the theorem applied to the concrete corrupted cache with a
healthy provider. -/
theorem get_embedding_selfheals_witness :
    (get_embedding (EmbedEnv.mk corruptCache (.ok [2]) true) "hello"
      "voyage-2").1 = .ok [2] ∧
    (get_embedding (EmbedEnv.mk corruptCache (.ok [2]) true) "hello"
      "voyage-2").2.1 (cache_file_name "hello" "voyage-2") ≠
      some CacheEntry.corrupt :=
  ⟨(get_embedding_selfheals (EmbedEnv.mk corruptCache (.ok [2]) true) "hello"
      "voyage-2" (by decide) (by simp [corruptCache])).2.1,
   (get_embedding_selfheals (EmbedEnv.mk corruptCache (.ok [2]) true) "hello"
      "voyage-2" (by decide) (by simp [corruptCache])).2.2.2⟩

/-! ## C4: the cache key -/

theorem length_leBytes (n x : Nat) : (leBytes n x).length = n := by
  induction n generalizing x with
  | zero => rfl
  | succ n ih => simp [leBytes, ih]

theorem length_hexStr (bs : List Nat) : (hexStr bs).length = 2 * bs.length := by
  show ((bs.map byteHex).foldr (· ++ ·) []).length = 2 * bs.length
  induction bs with
  | nil => rfl
  | cons b bs ih =>
    simp only [List.map_cons, List.foldr_cons, List.length_append, ih, byteHex,
      List.length_cons, List.length_nil, List.length_cons]
    omega

theorem md5Hex_length (msg : List Nat) : (md5Hex msg).length = 32 := by
  unfold md5Hex
  rw [length_hexStr]
  simp [length_leBytes]

/-- C4 (amended): the cache key is
`{md5_hex(utf8(text))}_{model}.npy` — the hash is MD5, it covers only the
text bytes (not the model), the digest stem has 32 hex characters (a
SHA-256 hex digest would have 64), and the model identifier is appended
to the key in clear, so keys for the same text under any two models
share their 32-character hash stem. -/
theorem cache_key_md5_of_text_only (t m1 m2 : String) :
    cache_file_name t m1 = md5Hex (utf8Bytes t) ++ "_" ++ m1 ++ ".npy" ∧
    (md5Hex (utf8Bytes t)).length = 32 ∧
    (cache_file_name t m1).data.take 32 = (cache_file_name t m2).data.take 32 := by
  have hstem : ∀ m : String,
      (cache_file_name t m).data.take 32 = (md5Hex (utf8Bytes t)).data := by
    intro m
    have hlen : (md5Hex (utf8Bytes t)).data.length = 32 := md5Hex_length _
    show ((md5Hex (utf8Bytes t) ++ "_" ++ m ++ ".npy").data).take 32 = _
    simp only [String.data_append, List.append_assoc]
    rw [← hlen, List.take_left]
  exact ⟨rfl, md5Hex_length _, (hstem m1).trans (hstem m2).symm⟩

set_option maxRecDepth 8000 in
/-- C4 counterexample: were the key a hash of the concatenation
`text ++ model`, the pairs ("ab", "c") and ("a", "bc") would collide on
the same digest; the actual keys differ (the hash covers the text alone
and the model is appended in clear). -/
theorem cache_key_not_hash_of_concat_cex :
    ("ab" ++ "c" : String) = "a" ++ "bc" ∧
    cache_file_name "ab" "c" ≠ cache_file_name "a" "bc" := by
  exact ⟨rfl, by decide⟩

/-! ## C1: the one `collection.add` call of `add_document`

A two-chunk document whose first chunk fails to embed exposes the
pairing of `ids`/`embeddings`/`metadatas` (built from the successful
chunks) with `documents=chunks[:len(embeddings)]` (the first chunks). -/

/-- 801 one-letter words: two chunks under the defaults (800, 100). -/
def bigWords : List String := List.replicate 801 "w"

/-- The extracted text of the failing document. -/
def bigText : String := pyJoin " " bigWords

/-- Chunk 0: words 0..799. -/
def chunkA : String := pyJoin " " (List.replicate 800 "w")

/-- Chunk 1: words 700..800. -/
def chunkB : String := pyJoin " " (List.replicate 101 "w")

/-- Environment: the file exists, extraction yields `bigText`, and the
embedding provider fails exactly on texts longer than 1000 characters —
so chunk 0 (1599 characters) fails and chunk 1 (201 characters)
succeeds. -/
def buggyIngestEnv : IngestEnv :=
  { fileExists := true
    extract := .ok bigText
    embedChunk := fun c =>
      if 1000 < c.length then .error "Voyage AI API error" else .ok [1] }

theorem replicate_w_good (n : Nat) : ∀ w ∈ List.replicate n "w", goodWord w := by
  intro w hw
  rw [List.eq_of_mem_replicate hw]
  decide

theorem pySplit_bigText : pySplit bigText = bigWords :=
  pySplit_pyJoin bigWords (replicate_w_good 801)

theorem pyJoin_replicate_w_length (n : Nat) :
    (pyJoin " " (List.replicate (n + 1) "w")).length = 2 * n + 1 := by
  induction n with
  | zero => rfl
  | succ n ih =>
    have hrep : List.replicate (n + 2) "w" =
        "w" :: List.replicate (n + 1) "w" := rfl
    have hrep1 : List.replicate (n + 1) "w" =
        "w" :: List.replicate n "w" := rfl
    have hjoin : pyJoin " " ("w" :: "w" :: List.replicate n "w") =
        "w" ++ " " ++ pyJoin " " ("w" :: List.replicate n "w") := rfl
    rw [hrep, hrep1, hjoin, ← hrep1]
    simp only [String.length_append, ih]
    have h1 : "w".length = 1 := rfl
    have h2 : " ".length = 1 := rfl
    omega

theorem chunkA_length : chunkA.length = 1599 := by
  have h : List.replicate 800 "w" = List.replicate (799 + 1) "w" := by norm_num
  show (pyJoin " " (List.replicate 800 "w")).length = 1599
  rw [h, pyJoin_replicate_w_length 799]

theorem chunkB_length : chunkB.length = 201 := by
  have h : List.replicate 101 "w" = List.replicate (100 + 1) "w" := by norm_num
  show (pyJoin " " (List.replicate 101 "w")).length = 201
  rw [h, pyJoin_replicate_w_length 100]

theorem chunkA_ne_chunkB : chunkA ≠ chunkB := by
  intro h
  have := congrArg String.length h
  rw [chunkA_length, chunkB_length] at this
  omega

theorem embedChunk_chunkA :
    buggyIngestEnv.embedChunk chunkA = .error "Voyage AI API error" := by
  have hfun : buggyIngestEnv.embedChunk = fun c =>
      if 1000 < c.length then .error "Voyage AI API error" else .ok [1] := rfl
  rw [hfun]
  simp only [chunkA_length]
  norm_num

theorem embedChunk_chunkB : buggyIngestEnv.embedChunk chunkB = .ok [1] := by
  have hfun : buggyIngestEnv.embedChunk = fun c =>
      if 1000 < c.length then .error "Voyage AI API error" else .ok [1] := rfl
  rw [hfun]
  simp only [chunkB_length]
  norm_num

theorem bigWords_length : bigWords.length = 801 := List.length_replicate 801 "w"

theorem chunk_text_bigText : chunk_text bigText 800 100 = .ok [chunkA, chunkB] := by
  have hsplit : pySplit bigText = bigWords := pySplit_bigText
  have hlen : (pySplit bigText).length = 801 := by rw [hsplit, bigWords_length]
  rw [chunk_text_windows bigText 800 100 (by omega) (by rw [hlen]; omega)]
  rw [hsplit]
  have hnum : (bigWords.length + (800 - 100) - 1) / (800 - 100) = 2 := by
    rw [bigWords_length]
  rw [hnum]
  rw [show List.range 2 = [0, 1] from rfl]
  simp only [List.map_cons, List.map_nil]
  have hw0 : window bigWords 800 (0 * (800 - 100)) = List.replicate 800 "w" := by
    show (bigWords.drop (0 * (800 - 100))).take 800 = List.replicate 800 "w"
    rw [show bigWords = List.replicate 801 "w" from rfl, List.drop_replicate,
      List.take_replicate]
    congr 1
  have hw1 : window bigWords 800 (1 * (800 - 100)) = List.replicate 101 "w" := by
    show (bigWords.drop (1 * (800 - 100))).take 800 = List.replicate 101 "w"
    rw [show bigWords = List.replicate 801 "w" from rfl, List.drop_replicate,
      List.take_replicate]
    congr 1
  rw [hw0, hw1, show chunkA = pyJoin " " (List.replicate 800 "w") from rfl,
    show chunkB = pyJoin " " (List.replicate 101 "w") from rfl]

theorem pathName_docs_big : pathName "docs/big.txt" = "big.txt" := by decide

theorem bigWords_ne_nil : bigWords ≠ [] := by
  intro h
  have := congrArg List.length h
  rw [bigWords_length] at this
  simp at this

theorem hasNonWS_bigText : hasNonWS bigText = true := by
  apply hasNonWS_of_pySplit_ne
  rw [pySplit_bigText]
  exact bigWords_ne_nil

theorem embedLoop_buggy :
    embedLoop buggyIngestEnv "big.txt" "docs/big.txt" [chunkA, chunkB] =
      ([[1]], ["big.txt_1"], [ChunkMeta.mk "big.txt" 1 "docs/big.txt"]) := by
  unfold embedLoop
  rw [show List.enum [chunkA, chunkB] = [(0, chunkA), (1, chunkB)] from rfl]
  simp only [List.foldl_cons, List.foldl_nil, embedChunk_chunkA,
    embedChunk_chunkB, List.nil_append]
  rfl

/-- C1 (code bug): a two-chunk document on which chunk 0 fails to embed
while chunk 1 succeeds.  The single `collection.add` call carries
`ids = ["big.txt_1"]` and the chunk-1 metadata, but
`documents = chunks[:1] = [chunkA]` — the text of chunk 0, not the text
of chunk 1 (`chunkB`).  The tuple upserted under id "big.txt_1" therefore
does not carry the text of that chunk, contradicting the claim (and the
spec notion of the persisted state) whenever the successfully embedded
chunks do not form an initial segment of the chunk list. -/
theorem add_document_misaligned_documents :
    chunk_text bigText 800 100 = .ok [chunkA, chunkB] ∧
    add_document buggyIngestEnv "docs/big.txt" none =
      (true, some (AddCall.mk ["big.txt_1"] [[1]] [chunkA]
        [ChunkMeta.mk "big.txt" 1 "docs/big.txt"])) ∧
    chunkA ≠ chunkB := by
  refine ⟨chunk_text_bigText, ?_, chunkA_ne_chunkB⟩
  unfold add_document
  rw [show buggyIngestEnv.fileExists = true from rfl,
    show buggyIngestEnv.extract = Except.ok bigText from rfl]
  simp only [Bool.not_true, Bool.false_eq_true, if_false, hasNonWS_bigText]
  rw [chunk_text_bigText]
  simp only [List.cons_ne_nil, if_false, Option.getD_none, pathName_docs_big,
    embedLoop_buggy]
  simp
